import Mathlib

/-!
Verification of the orchestration core of a serverless image-generation worker
(`rp_handler.py` and `comfy_runner.py`).

The embedding follows the Python source directly:

* JSON values appearing in workflow templates are modelled by `JVal`.
* A workflow node is `Node` (an `id` plus an optional `widgets_values` list,
  mirroring the `"widgets_values" in node` membership test).
* A workflow template is `Template`: either "graph" form (a JSON document with a
  `nodes` sequence, the form actually consumed by the source) or "flattened"
  form (a mapping keyed by stringified node id with an `inputs` mapping).
  `workflow.get("nodes", [])` on a flattened document yields the empty list,
  which `Template.getNodes` reproduces.
* Python's in-place mutation of the workflow dict is embedded by explicit state
  passing: a function that mutates its argument returns the updated value, and
  the returned value stands for the caller's variable after the call.
-/

inductive JVal where
  | s : String → JVal
  | n : Int → JVal
  | b : Bool → JVal
  | null : JVal
deriving DecidableEq, Repr

inductive NodeId where
  | int : Int → NodeId
  | str : String → NodeId
deriving DecidableEq, Repr

/-- Python's `str(node_id)`: an integer id stringifies to its decimal form. -/
def NodeId.toStr : NodeId → String
  | NodeId.int k => toString k
  | NodeId.str s => s

structure Node where
  id : NodeId
  widgets_values : Option (List JVal)
deriving DecidableEq, Repr

/-- One entry of a flattened-form template: an `inputs` mapping of named keys. -/
structure FlatNode where
  inputs : List (String × JVal)
deriving DecidableEq, Repr

inductive Template where
  | graph : List Node → Template
  | flattened : List (String × FlatNode) → Template
deriving DecidableEq, Repr

/-- `workflow.get("nodes", [])`: the node sequence of a graph-form template;
a flattened-form document has no `nodes` key, so the default `[]` is used. -/
def Template.getNodes : Template → List Node
  | Template.graph ns => ns
  | Template.flattened _ => []

/-- `str(node.get("id"))` for a node (ids are always present in this model). -/
def strId (nd : Node) : String := nd.id.toStr

/-- Python list item assignment `ws[idx] = v` (only reached when `idx < len ws`). -/
def listSet : List JVal → Nat → JVal → List JVal
  | [], _, _ => []
  | _ :: xs, 0, v => v :: xs
  | x :: xs, Nat.succ k, v => x :: listSet xs k v

theorem listSet_length (ws : List JVal) (k : Nat) (v : JVal) :
    (listSet ws k v).length = ws.length := by
  induction ws generalizing k with
  | nil => rfl
  | cons x xs ih =>
    cases k with
    | zero => rfl
    | succ k => simp [listSet, ih]

theorem listSet_get_self (ws : List JVal) (k : Nat) (v : JVal) (h : k < ws.length) :
    (listSet ws k v).get? k = some v := by
  induction ws generalizing k with
  | nil => simp at h
  | cons x xs ih =>
    cases k with
    | zero => rfl
    | succ k =>
      simp only [listSet, List.get?]
      exact ih k (by simpa using h)

theorem listSet_get_other (ws : List JVal) (k j : Nat) (v : JVal) (h : j ≠ k) :
    (listSet ws k v).get? j = ws.get? j := by
  induction ws generalizing k j with
  | nil => rfl
  | cons x xs ih =>
    cases k with
    | zero =>
      cases j with
      | zero => exact absurd rfl h
      | succ j => rfl
    | succ k =>
      cases j with
      | zero => rfl
      | succ j =>
        simp only [listSet, List.get?]
        exact ih k j (fun hc => h (by simp [hc]))

/-- `True` when the node's `widgets_values` list is present and longer than `idx`
(the guard `"widgets_values" in node and len(node["widgets_values"]) > widget_index`). -/
def nodeHasSlot (nd : Node) (idx : Nat) : Bool :=
  match nd.widgets_values with
  | some ws => idx < ws.length
  | none => false

/-- The in-place slot assignment `node["widgets_values"][widget_index] = value`
(only performed on a node whose widget list is present and long enough). -/
def setNodeWidget (nd : Node) (idx : Nat) (v : JVal) : Node :=
  Node.mk nd.id
    (match nd.widgets_values with
     | some ws => some (listSet ws idx v)
     | none => none)

/--
The loop body of `find_node_and_set_widget_value`, at the level of the node
list.  The Python loop scans the nodes in order; at the first node whose
stringified id equals `nidS` and whose `widgets_values` list is present and
long enough, it assigns the slot in place and returns `True` (a node that
matches by id but fails the widget check is skipped and the scan continues,
exactly the fused guard below); if the scan ends without an assignment the
function returns `False`.  The returned list is the caller's node list after
the call (in-place update).
-/
def setWidgetInNodes (ns : List Node) (nidS : String) (idx : Nat) (v : JVal) :
    Bool × List Node :=
  match ns with
  | [] => (false, [])
  | nd :: rest =>
    if strId nd = nidS ∧ nodeHasSlot nd idx = true then
      (true, setNodeWidget nd idx v :: rest)
    else
      let r := setWidgetInNodes rest nidS idx v
      (r.1, nd :: r.2)

/-- `find_node_and_set_widget_value(workflow, node_id, widget_index, value)`.
On a flattened-form document the iterated node sequence is empty, so the
function returns `False` and the document is untouched. -/
def find_node_and_set_widget_value (w : Template) (nid : NodeId) (idx : Nat)
    (v : JVal) : Bool × Template :=
  match w with
  | Template.graph ns =>
    let r := setWidgetInNodes ns nid.toStr idx v
    (r.1, Template.graph r.2)
  | Template.flattened es => (false, Template.flattened es)

/-- One override: overwrite widget slot `widget_index` of the node whose
stringified id matches `node_id` with `value`. -/
structure Override where
  node_id : NodeId
  widget_index : Nat
  value : JVal
deriving DecidableEq, Repr

/-- The error message pattern used by the handler when an override's target
node cannot be found (`'Could not find ... node (ID 9) in workflow.'`),
naming the missing identifier. -/
def missingMsg (nid : NodeId) : String :=
  "Could not find node (ID " ++ nid.toStr ++ ") in workflow."

/--
`parameterize(T, O)`: apply `find_node_and_set_widget_value` for each override
in turn, exactly as the handler does for its two overrides, returning an error
naming the missing identifier as soon as one application reports failure.
The second component is the caller's template value after the call (the Python
function mutates the template in place, so on the error path it may already
carry the earlier overrides).
-/
def parameterize (T : Template) (O : List Override) : Option String × Template :=
  match O with
  | [] => (none, T)
  | o :: rest =>
    let r := find_node_and_set_widget_value T o.node_id o.widget_index o.value
    if r.1 then parameterize r.2 rest
    else (some (missingMsg o.node_id), r.2)

/-- The override's target (node, slot) pair exists in the template: some node
has the matching stringified id and a widget list long enough. -/
def targetExistsB (T : Template) (o : Override) : Bool :=
  T.getNodes.any (fun nd => (strId nd == o.node_id.toStr) && nodeHasSlot nd o.widget_index)

/-- The stringified id of the node at position `i` of the template. -/
def nodeIdAt (T : Template) (i : Nat) : Option String :=
  (T.getNodes.get? i).map strId

/-- The value of widget slot `j` of the node at position `i` of the template. -/
def slotAt (T : Template) (i j : Nat) : Option JVal :=
  match T.getNodes.get? i with
  | some nd =>
    match nd.widgets_values with
    | some ws => ws.get? j
    | none => none
  | none => none

/-- The shape of a node: its stringified id together with the presence and
length of its widget list.  `setWidgetInNodes` only ever replaces one slot
value, so shapes are preserved. -/
def nodeShape (nd : Node) : String × Option Nat :=
  (strId nd, nd.widgets_values.map List.length)

theorem nodeShape_setNodeWidget (nd : Node) (idx : Nat) (v : JVal) :
    nodeShape (setNodeWidget nd idx v) = nodeShape nd := by
  cases hw : nd.widgets_values with
  | none => simp [nodeShape, setNodeWidget, strId, hw]
  | some ws => simp [nodeShape, setNodeWidget, strId, hw, listSet_length]

theorem setWidget_shape (ns : List Node) (nidS : String) (idx : Nat) (v : JVal) :
    (setWidgetInNodes ns nidS idx v).2.map nodeShape = ns.map nodeShape := by
  induction ns with
  | nil => rfl
  | cons nd rest ih =>
    by_cases h : strId nd = nidS ∧ nodeHasSlot nd idx = true
    · simp [setWidgetInNodes, h, nodeShape_setNodeWidget]
    · simp [setWidgetInNodes, h, ih]

theorem setWidget_fst_any (ns : List Node) (nidS : String) (idx : Nat) (v : JVal) :
    (setWidgetInNodes ns nidS idx v).1
      = ns.any (fun nd => (strId nd == nidS) && nodeHasSlot nd idx) := by
  induction ns with
  | nil => rfl
  | cons nd rest ih =>
    by_cases h : strId nd = nidS ∧ nodeHasSlot nd idx = true
    · simp [setWidgetInNodes, h, List.any_cons, h.1, h.2]
    · have hb : ((strId nd == nidS) && nodeHasSlot nd idx) = false := by
        by_cases h1 : strId nd = nidS
        · by_cases h2 : nodeHasSlot nd idx = true
          · exact absurd ⟨h1, h2⟩ h
          · simp [h1, Bool.eq_false_iff.mpr h2]
        · simp [h1]
      simp [setWidgetInNodes, h, List.any_cons, hb, ih]

theorem setWidget_false_eq (ns : List Node) (nidS : String) (idx : Nat) (v : JVal)
    (h : (setWidgetInNodes ns nidS idx v).1 = false) :
    (setWidgetInNodes ns nidS idx v).2 = ns := by
  induction ns with
  | nil => rfl
  | cons nd rest ih =>
    by_cases hc : strId nd = nidS ∧ nodeHasSlot nd idx = true
    · simp [setWidgetInNodes, hc] at h
    · simp only [setWidgetInNodes, if_neg hc] at h ⊢
      simp [ih h]

/--
At the first position `i` whose node matches `nidS` with an adequate widget
list, `setWidgetInNodes` overwrites slot `idx` of exactly that node and leaves
every other position untouched.
-/
theorem setWidget_first_match (ns : List Node) (nidS : String) (idx : Nat) (v : JVal)
    (i : Nat) (nd : Node) (ws : List JVal)
    (hget : ns.get? i = some nd) (hid : strId nd = nidS)
    (hws : nd.widgets_values = some ws) (hlt : idx < ws.length)
    (hfirst : ∀ k nd', k < i → ns.get? k = some nd' → strId nd' = nidS →
      nodeHasSlot nd' idx = false) :
    (setWidgetInNodes ns nidS idx v).1 = true ∧
    ∀ k, (setWidgetInNodes ns nidS idx v).2.get? k =
      if k = i then some (Node.mk nd.id (some (listSet ws idx v)))
      else ns.get? k := by
  induction ns generalizing i with
  | nil => simp at hget
  | cons a rest ih =>
    cases i with
    | zero =>
      have ha : a = nd := by simpa using hget
      subst ha
      have hslot : nodeHasSlot a idx = true := by
        simp [nodeHasSlot, hws, hlt]
      have hc : strId a = nidS ∧ nodeHasSlot a idx = true := ⟨hid, hslot⟩
      constructor
      · simp [setWidgetInNodes, hc]
      · intro k
        cases k with
        | zero => simp [setWidgetInNodes, hc, setNodeWidget, hws]
        | succ k => simp [setWidgetInNodes, hc]
    | succ i' =>
      have hnot : ¬(strId a = nidS ∧ nodeHasSlot a idx = true) := by
        rintro ⟨h1, h2⟩
        have := hfirst 0 a (Nat.succ_pos i') rfl h1
        simp [this] at h2
      have hget' : rest.get? i' = some nd := by simpa using hget
      have hfirst' : ∀ k nd', k < i' → rest.get? k = some nd' → strId nd' = nidS →
          nodeHasSlot nd' idx = false := by
        intro k nd' hk hg hs
        exact hfirst (k + 1) nd' (Nat.succ_lt_succ hk) (by simpa using hg) hs
      obtain ⟨hb, hpt⟩ := ih i' hget' hfirst'
      constructor
      · simp [setWidgetInNodes, hnot, hb]
      · intro k
        cases k with
        | zero => simp [setWidgetInNodes, hnot]
        | succ k =>
          have := hpt k
          simp only [setWidgetInNodes, if_neg hnot, List.get?]
          simpa [Nat.succ_eq_add_one] using this

theorem nodup_get_unique {l : List String} (h : l.Nodup) {i j : Nat} {s : String}
    (hi : l.get? i = some s) (hj : l.get? j = some s) : i = j := by
  induction l generalizing i j with
  | nil => simp at hi
  | cons a t ih =>
    rw [List.nodup_cons] at h
    cases i with
    | zero =>
      cases j with
      | zero => rfl
      | succ j =>
        have ha : a = s := by simpa using hi
        have hmem : s ∈ t := List.get?_mem (by simpa using hj)
        exact absurd (ha ▸ hmem) h.1
    | succ i =>
      cases j with
      | zero =>
        have ha : a = s := by simpa using hj
        have hmem : s ∈ t := List.get?_mem (by simpa using hi)
        exact absurd (ha ▸ hmem) h.1
      | succ j =>
        have := ih h.2 (by simpa using hi) (by simpa using hj)
        simp [this]

/-- Whether a widget list of the given shape (presence and length) has slot `idx`. -/
def shapeHasSlot : Option Nat → Nat → Bool
  | some len, idx => decide (idx < len)
  | none, _ => false

theorem nodeHasSlot_shape (nd : Node) (idx : Nat) :
    nodeHasSlot nd idx = shapeHasSlot (nodeShape nd).2 idx := by
  cases h : nd.widgets_values <;> simp [nodeHasSlot, nodeShape, shapeHasSlot, h]

theorem any_target_eq_of_shape (ns ns' : List Node)
    (h : ns'.map nodeShape = ns.map nodeShape) (s : String) (idx : Nat) :
    ns'.any (fun nd => (strId nd == s) && nodeHasSlot nd idx)
      = ns.any (fun nd => (strId nd == s) && nodeHasSlot nd idx) := by
  have e : ∀ l : List Node,
      l.any (fun nd => (strId nd == s) && nodeHasSlot nd idx)
        = (l.map nodeShape).any (fun sh => (sh.1 == s) && shapeHasSlot sh.2 idx) := by
    intro l
    induction l with
    | nil => rfl
    | cons nd rest ih =>
      simp only [List.any_cons, List.map_cons]
      rw [ih, nodeHasSlot_shape]
      rfl
  rw [e ns', e ns, h]

theorem targetExistsB_graph_eq_of_shape (ns ns' : List Node)
    (h : ns'.map nodeShape = ns.map nodeShape) (o : Override) :
    targetExistsB (Template.graph ns') o = targetExistsB (Template.graph ns) o :=
  any_target_eq_of_shape ns ns' h o.node_id.toStr o.widget_index

theorem map_strId_eq_of_shape (ns ns' : List Node)
    (h : ns'.map nodeShape = ns.map nodeShape) :
    ns'.map strId = ns.map strId := by
  have e : ∀ l : List Node, l.map strId = (l.map nodeShape).map Prod.fst := by
    intro l
    rw [List.map_map]
    rfl
  rw [e ns', e ns, h]

theorem nodeIdAt_graph_eq_of_map (ns ns' : List Node)
    (h : ns'.map strId = ns.map strId) (i : Nat) :
    nodeIdAt (Template.graph ns') i = nodeIdAt (Template.graph ns) i := by
  unfold nodeIdAt Template.getNodes
  rw [← List.get?_map, h, List.get?_map]

/-- `find_node_and_set_widget_value` reports success exactly when the target
(node, slot) pair exists in the template. -/
theorem find_fst_eq_targetExistsB (T : Template) (nid : NodeId) (idx : Nat) (v : JVal) :
    (find_node_and_set_widget_value T nid idx v).1
      = targetExistsB T (Override.mk nid idx v) := by
  cases T with
  | graph ns =>
    simp [find_node_and_set_widget_value, targetExistsB, Template.getNodes,
      setWidget_fst_any]
  | flattened es => rfl

/--
Under unique stringified ids, a successful target lookup identifies a unique
position `i`; `setWidgetInNodes` overwrites exactly that node's slot.
-/
theorem find_step_nodup (ns : List Node) (nid : NodeId) (idx : Nat) (v : JVal)
    (huniq : (ns.map strId).Nodup)
    (hex : targetExistsB (Template.graph ns) (Override.mk nid idx v) = true) :
    ∃ i nd ws, ns.get? i = some nd ∧ strId nd = nid.toStr ∧
      nd.widgets_values = some ws ∧ idx < ws.length ∧
      (setWidgetInNodes ns nid.toStr idx v).1 = true ∧
      (∀ k, (setWidgetInNodes ns nid.toStr idx v).2.get? k =
        if k = i then some (Node.mk nd.id (some (listSet ws idx v)))
        else ns.get? k) ∧
      (∀ k nd', ns.get? k = some nd' → strId nd' = nid.toStr → k = i) := by
  have hex' : ∃ nd ∈ ns, ((strId nd == nid.toStr) && nodeHasSlot nd idx) = true := by
    simpa [targetExistsB, Template.getNodes, List.any_eq_true] using hex
  obtain ⟨nd, hmem, hpred⟩ := hex'
  obtain ⟨hid, hslot⟩ : strId nd = nid.toStr ∧ nodeHasSlot nd idx = true := by
    constructor
    · exact eq_of_beq (Bool.and_elim_left hpred)
    · exact Bool.and_elim_right hpred
  obtain ⟨ws, hws, hlt⟩ : ∃ ws, nd.widgets_values = some ws ∧ idx < ws.length := by
    cases h : nd.widgets_values with
    | none => simp [nodeHasSlot, h] at hslot
    | some ws =>
      refine ⟨ws, rfl, ?_⟩
      simpa [nodeHasSlot, h] using hslot
  obtain ⟨⟨i, hil⟩, hget⟩ := List.mem_iff_get.mp hmem
  have hgeti : ns.get? i = some nd := by
    rw [List.get?_eq_get hil, hget]
  have hun : ∀ k nd', ns.get? k = some nd' → strId nd' = nid.toStr → k = i := by
    intro k nd' hk hs
    have h1 : (ns.map strId).get? k = some nid.toStr := by
      rw [List.get?_map, hk]
      simp [hs]
    have h2 : (ns.map strId).get? i = some nid.toStr := by
      rw [List.get?_map, hgeti]
      simp [hid]
    exact nodup_get_unique huniq h1 h2
  have hfirst : ∀ k nd', k < i → ns.get? k = some nd' → strId nd' = nid.toStr →
      nodeHasSlot nd' idx = false := by
    intro k nd' hk hg hs
    exact absurd (hun k nd' hg hs) (Nat.ne_of_lt hk)
  obtain ⟨hb, hpt⟩ := setWidget_first_match ns nid.toStr idx v i nd ws hgeti hid hws hlt hfirst
  exact ⟨i, nd, ws, hgeti, hid, hws, hlt, hb, hpt, hun⟩

theorem slotAt_graph_of_get (ns : List Node) (i j : Nat) (nd : Node) (ws : List JVal)
    (hg : ns.get? i = some nd) (hw : nd.widgets_values = some ws) :
    slotAt (Template.graph ns) i j = ws.get? j := by
  simp only [slotAt, Template.getNodes, hg, hw]

theorem slotAt_graph_of_get_eq (ns ns' : List Node) (i j : Nat)
    (h : ns'.get? i = ns.get? i) :
    slotAt (Template.graph ns') i j = slotAt (Template.graph ns) i j := by
  simp only [slotAt, Template.getNodes, h]

/--
C1: For every template T (with unique stringified node ids, the template
invariant) and every override set O with pairwise-distinct targets, all of
whose target (node, slot) pairs exist in T, `parameterize T O` — repeated
`find_node_and_set_widget_value` as done by the handler — succeeds, every
overridden slot of the result holds its override value, every slot not
targeted by an override is unchanged from T, and node ids are unchanged.
-/
theorem parameterize_applies_all_overrides (T : Template) (O : List Override)
    (huniq : (T.getNodes.map strId).Nodup)
    (hdist : (O.map (fun o => (o.node_id.toStr, o.widget_index))).Nodup)
    (hex : ∀ o ∈ O, targetExistsB T o = true) :
    (parameterize T O).1 = none ∧
    (∀ i, nodeIdAt (parameterize T O).2 i = nodeIdAt T i) ∧
    (∀ o ∈ O, ∀ i, nodeIdAt T i = some o.node_id.toStr →
      slotAt (parameterize T O).2 i o.widget_index = some o.value) ∧
    (∀ i j, (∀ o ∈ O, ¬(nodeIdAt T i = some o.node_id.toStr ∧ j = o.widget_index)) →
      slotAt (parameterize T O).2 i j = slotAt T i j) := by
  induction O generalizing T with
  | nil =>
    refine ⟨rfl, fun i => rfl, ?_, ?_⟩
    · intro o ho
      simp at ho
    · intro i j _
      rfl
  | cons o rest ih =>
    have hexo : targetExistsB T o = true := hex o (List.mem_cons_self o rest)
    cases T with
    | flattened es => simp [targetExistsB, Template.getNodes] at hexo
    | graph ns =>
      obtain ⟨i0, nd0, ws0, hget0, hid0, hws0, hlt0, hb0, hpt0, hun0⟩ :=
        find_step_nodup ns o.node_id o.widget_index o.value huniq hexo
      have hstep : parameterize (Template.graph ns) (o :: rest)
          = parameterize (Template.graph
              (setWidgetInNodes ns o.node_id.toStr o.widget_index o.value).2) rest := by
        simp [parameterize, find_node_and_set_widget_value, hb0]
      have hshape : (setWidgetInNodes ns o.node_id.toStr o.widget_index o.value).2.map nodeShape
          = ns.map nodeShape := setWidget_shape ns o.node_id.toStr o.widget_index o.value
      have hmapid : (setWidgetInNodes ns o.node_id.toStr o.widget_index o.value).2.map strId
          = ns.map strId := map_strId_eq_of_shape _ _ hshape
      have huniq' : ((setWidgetInNodes ns o.node_id.toStr o.widget_index o.value).2.map strId).Nodup := by
        rw [hmapid]
        exact huniq
      rw [List.map_cons] at hdist
      obtain ⟨hnotin, hdtail⟩ := List.nodup_cons.mp hdist
      have hex' : ∀ o' ∈ rest,
          targetExistsB (Template.graph
            (setWidgetInNodes ns o.node_id.toStr o.widget_index o.value).2) o' = true := by
        intro o' ho'
        rw [targetExistsB_graph_eq_of_shape ns _ hshape]
        exact hex o' (List.mem_cons_of_mem o ho')
      obtain ⟨ihs, ihid, ihslot, ihun⟩ := ih (Template.graph
        (setWidgetInNodes ns o.node_id.toStr o.widget_index o.value).2) huniq' hdtail hex'
      have hids : ∀ i, nodeIdAt (Template.graph
          (setWidgetInNodes ns o.node_id.toStr o.widget_index o.value).2) i
          = nodeIdAt (Template.graph ns) i :=
        nodeIdAt_graph_eq_of_map ns _ hmapid
      have hslotset : slotAt (Template.graph
          (setWidgetInNodes ns o.node_id.toStr o.widget_index o.value).2) i0 o.widget_index
          = some o.value := by
        rw [slotAt_graph_of_get _ i0 o.widget_index
          (Node.mk nd0.id (some (listSet ws0 o.widget_index o.value)))
          (listSet ws0 o.widget_index o.value)
          (by rw [hpt0 i0]; simp) rfl]
        exact listSet_get_self ws0 o.widget_index o.value hlt0
      have hslotother : ∀ i j, ¬(i = i0 ∧ j = o.widget_index) →
          slotAt (Template.graph
            (setWidgetInNodes ns o.node_id.toStr o.widget_index o.value).2) i j
          = slotAt (Template.graph ns) i j := by
        intro i j hne
        by_cases hi : i = i0
        · subst hi
          have hj : j ≠ o.widget_index := fun hj => hne ⟨rfl, hj⟩
          rw [slotAt_graph_of_get _ i j
            (Node.mk nd0.id (some (listSet ws0 o.widget_index o.value)))
            (listSet ws0 o.widget_index o.value)
            (by rw [hpt0 i]; simp) rfl]
          rw [slotAt_graph_of_get ns i j nd0 ws0 hget0 hws0]
          exact listSet_get_other ws0 o.widget_index j o.value hj
        · apply slotAt_graph_of_get_eq
          rw [hpt0 i]
          simp [hi]
      have hidat0 : nodeIdAt (Template.graph ns) i0 = some o.node_id.toStr := by
        unfold nodeIdAt Template.getNodes
        rw [hget0]
        simp [hid0]
      refine ⟨?_, ?_, ?_, ?_⟩
      · rw [hstep]
        exact ihs
      · intro i
        rw [hstep, ihid i, hids i]
      · intro o' ho' i hidi
        rw [hstep]
        rcases List.mem_cons.mp ho' with rfl | ho''
        · obtain ⟨ndi, hgi, hsi⟩ : ∃ ndi, ns.get? i = some ndi ∧ strId ndi = o'.node_id.toStr := by
            unfold nodeIdAt Template.getNodes at hidi
            cases hg : ns.get? i with
            | none =>
              rw [hg] at hidi
              exact absurd hidi (by simp)
            | some ndi =>
              rw [hg] at hidi
              refine ⟨ndi, rfl, ?_⟩
              simpa using hidi
          have hii : i = i0 := hun0 i ndi hgi hsi
          subst hii
          have huntarget : ∀ o'' ∈ rest,
              ¬(nodeIdAt (Template.graph
                  (setWidgetInNodes ns o'.node_id.toStr o'.widget_index o'.value).2) i
                  = some o''.node_id.toStr ∧ o'.widget_index = o''.widget_index) := by
            rintro o'' ho'' ⟨h1, h2⟩
            rw [hids i, hidi] at h1
            have hstr : o''.node_id.toStr = o'.node_id.toStr := by
              injection h1 with h1'
              exact h1'.symm
            apply hnotin
            have : (o''.node_id.toStr, o''.widget_index)
                = (o'.node_id.toStr, o'.widget_index) := by
              rw [hstr, h2]
            rw [← this]
            exact List.mem_map_of_mem _ ho''
          rw [ihun i o'.widget_index huntarget]
          exact hslotset
        · exact ihslot o' ho'' i (by rw [hids i]; exact hidi)
      · intro i j huntar
        rw [hstep]
        have h1 : ∀ o'' ∈ rest,
            ¬(nodeIdAt (Template.graph
                (setWidgetInNodes ns o.node_id.toStr o.widget_index o.value).2) i
                = some o''.node_id.toStr ∧ j = o''.widget_index) := by
          intro o'' ho'' hc
          exact huntar o'' (List.mem_cons_of_mem o ho'') ⟨(hids i) ▸ hc.1, hc.2⟩
        rw [ihun i j h1]
        apply hslotother
        rintro ⟨rfl, rfl⟩
        exact huntar o (List.mem_cons_self o rest) ⟨hidat0, rfl⟩

theorem find_false_unchanged (T : Template) (nid : NodeId) (idx : Nat) (v : JVal)
    (h : (find_node_and_set_widget_value T nid idx v).1 = false) :
    (find_node_and_set_widget_value T nid idx v).2 = T := by
  cases T with
  | graph ns =>
    simp only [find_node_and_set_widget_value] at h ⊢
    rw [setWidget_false_eq ns nid.toStr idx v h]
  | flattened es => rfl

theorem find_preserves_targetExistsB (T : Template) (nid : NodeId) (idx : Nat)
    (v : JVal) (o : Override) :
    targetExistsB (find_node_and_set_widget_value T nid idx v).2 o
      = targetExistsB T o := by
  cases T with
  | graph ns =>
    exact targetExistsB_graph_eq_of_shape ns _ (setWidget_shape ns nid.toStr idx v) o
  | flattened es => rfl

theorem listFind_congr {α : Type} (l : List α) (p q : α → Bool)
    (h : ∀ a, p a = q a) : l.find? p = l.find? q := by
  induction l with
  | nil => rfl
  | cons a t ih =>
    simp only [List.find?]
    rw [h a, ih]

/--
C2 (amended): if some override's target (node, slot) pair is absent from the
template, parameterization fails with an error naming the first missing
identifier — the error result, not a workflow, is what the caller receives,
so a partially-applied workflow is never submitted.  (The in-memory template
object may already carry the overrides that preceded the missing one, since
`find_node_and_set_widget_value` mutates it in place — see the counterexample.)
-/
theorem parameterize_missing_target_fails (T : Template) (O : List Override)
    (o : Override) (h : O.find? (fun x => !targetExistsB T x) = some o) :
    (parameterize T O).1 = some (missingMsg o.node_id) := by
  induction O generalizing T with
  | nil => simp [List.find?] at h
  | cons o0 rest ih =>
    by_cases h0 : targetExistsB T o0 = true
    · have hpred : (!targetExistsB T o0) = false := by rw [h0]; rfl
      have hfind : rest.find? (fun x => !targetExistsB T x) = some o := by
        simpa [List.find?, hpred] using h
      have hb : (find_node_and_set_widget_value T o0.node_id o0.widget_index o0.value).1
          = true := by
        rw [find_fst_eq_targetExistsB]
        exact h0
      have hstep : parameterize T (o0 :: rest)
          = parameterize
              (find_node_and_set_widget_value T o0.node_id o0.widget_index o0.value).2
              rest := by
        simp [parameterize, hb]
      rw [hstep]
      apply ih
      rw [listFind_congr rest _ _
        (fun x => by rw [find_preserves_targetExistsB])]
      exact hfind
    · have hb : (find_node_and_set_widget_value T o0.node_id o0.widget_index o0.value).1
          = false := by
        rw [find_fst_eq_targetExistsB]
        exact Bool.eq_false_iff.mpr h0
      have hpred : (!targetExistsB T o0) = true := by
        rw [Bool.eq_false_iff.mpr h0]
        rfl
      have hoo : o0 = o := by
        have : some o0 = some o := by simpa [List.find?, hpred] using h
        injection this
      subst hoo
      simp [parameterize, hb]

/-- C2 witness: a template holding only the prompt node (id 9); the override
set also targets node 24, which is absent, so parameterization fails with the
message naming identifier 24. -/
theorem parameterize_missing_target_fails_witness :
    (parameterize
      (Template.graph [Node.mk (NodeId.int 9) (some [JVal.s "placeholder"])])
      [Override.mk (NodeId.int 9) 0 (JVal.s "a cat in a hat"),
       Override.mk (NodeId.int 24) 0 (JVal.s "input_image.png")]).1
      = some (missingMsg (NodeId.int 24)) :=
  parameterize_missing_target_fails
    (Template.graph [Node.mk (NodeId.int 9) (some [JVal.s "placeholder"])])
    [Override.mk (NodeId.int 9) 0 (JVal.s "a cat in a hat"),
     Override.mk (NodeId.int 24) 0 (JVal.s "input_image.png")]
    (Override.mk (NodeId.int 24) 0 (JVal.s "input_image.png"))
    (by decide)

/--
C2 counterexample: the claim asserts that when parameterization fails, "no
slot of any node has been overwritten when the error is returned".  With a
template holding node 9 but not node 24, the handler-style sequential
application first overwrites node 9's slot in place and only then fails on
node 24: the error is returned while node 9's slot already holds the override
value instead of the original placeholder.
-/
theorem parameterize_partial_overwrite_cex :
    ((parameterize
      (Template.graph [Node.mk (NodeId.int 9) (some [JVal.s "placeholder"])])
      [Override.mk (NodeId.int 9) 0 (JVal.s "a cat in a hat"),
       Override.mk (NodeId.int 24) 0 (JVal.s "input_image.png")]).1).isSome = true ∧
    slotAt (parameterize
      (Template.graph [Node.mk (NodeId.int 9) (some [JVal.s "placeholder"])])
      [Override.mk (NodeId.int 9) 0 (JVal.s "a cat in a hat"),
       Override.mk (NodeId.int 24) 0 (JVal.s "input_image.png")]).2 0 0
      = some (JVal.s "a cat in a hat") ∧
    slotAt (Template.graph [Node.mk (NodeId.int 9) (some [JVal.s "placeholder"])]) 0 0
      = some (JVal.s "placeholder") := by
  decide

/-- C1 witness: a concrete two-node template with the handler's two overrides;
parameterization succeeds and the prompt node's slot holds the override value. -/
theorem parameterize_applies_all_overrides_witness :
    (parameterize
      (Template.graph [Node.mk (NodeId.int 9) (some [JVal.s "placeholder"]),
                       Node.mk (NodeId.int 24) (some [JVal.s "placefile"])])
      [Override.mk (NodeId.int 9) 0 (JVal.s "a cat in a hat"),
       Override.mk (NodeId.int 24) 0 (JVal.s "input_image.png")]).1 = none ∧
    slotAt (parameterize
      (Template.graph [Node.mk (NodeId.int 9) (some [JVal.s "placeholder"]),
                       Node.mk (NodeId.int 24) (some [JVal.s "placefile"])])
      [Override.mk (NodeId.int 9) 0 (JVal.s "a cat in a hat"),
       Override.mk (NodeId.int 24) 0 (JVal.s "input_image.png")]).2 0 0
      = some (JVal.s "a cat in a hat") :=
  ⟨(parameterize_applies_all_overrides
      (Template.graph [Node.mk (NodeId.int 9) (some [JVal.s "placeholder"]),
                       Node.mk (NodeId.int 24) (some [JVal.s "placefile"])])
      [Override.mk (NodeId.int 9) 0 (JVal.s "a cat in a hat"),
       Override.mk (NodeId.int 24) 0 (JVal.s "input_image.png")]
      (by decide) (by decide) (by decide)).1,
   (parameterize_applies_all_overrides
      (Template.graph [Node.mk (NodeId.int 9) (some [JVal.s "placeholder"]),
                       Node.mk (NodeId.int 24) (some [JVal.s "placefile"])])
      [Override.mk (NodeId.int 9) 0 (JVal.s "a cat in a hat"),
       Override.mk (NodeId.int 24) 0 (JVal.s "input_image.png")]
      (by decide) (by decide) (by decide)).2.2.1
     (Override.mk (NodeId.int 9) 0 (JVal.s "a cat in a hat"))
     (by decide) 0 (by decide)⟩

/--
C3 (amended): `find_node_and_set_widget_value` mutates the template in place
rather than producing a new graph value: when it returns `False` the caller's
template is unchanged, and when the target is present (first adequate match at
position `i`) it returns `True` with exactly that node's slot `idx`
overwritten in the caller's template; all other slots and all node ids are
unchanged.
-/
theorem find_in_place_mutation (T : Template) (nid : NodeId) (idx : Nat) (v : JVal) :
    ((find_node_and_set_widget_value T nid idx v).1 = false →
      (find_node_and_set_widget_value T nid idx v).2 = T) ∧
    (∀ i nd ws, T.getNodes.get? i = some nd → strId nd = nid.toStr →
      nd.widgets_values = some ws → idx < ws.length →
      (∀ k nd', k < i → T.getNodes.get? k = some nd' → strId nd' = nid.toStr →
        nodeHasSlot nd' idx = false) →
      (find_node_and_set_widget_value T nid idx v).1 = true ∧
      slotAt (find_node_and_set_widget_value T nid idx v).2 i idx = some v ∧
      (∀ k j, ¬(k = i ∧ j = idx) →
        slotAt (find_node_and_set_widget_value T nid idx v).2 k j = slotAt T k j) ∧
      (∀ k, nodeIdAt (find_node_and_set_widget_value T nid idx v).2 k = nodeIdAt T k)) := by
  constructor
  · exact find_false_unchanged T nid idx v
  · intro i nd ws hget hid hws hlt hfirst
    cases T with
    | flattened es => simp [Template.getNodes] at hget
    | graph ns =>
      obtain ⟨hb, hpt⟩ := setWidget_first_match ns nid.toStr idx v i nd ws hget hid hws hlt hfirst
      have hfind2 : (find_node_and_set_widget_value (Template.graph ns) nid idx v).2
          = Template.graph (setWidgetInNodes ns nid.toStr idx v).2 := rfl
      refine ⟨hb, ?_, ?_, ?_⟩
      · rw [hfind2, slotAt_graph_of_get _ i idx
          (Node.mk nd.id (some (listSet ws idx v))) (listSet ws idx v)
          (by rw [hpt i]; simp) rfl]
        exact listSet_get_self ws idx v hlt
      · intro k j hne
        rw [hfind2]
        by_cases hk : k = i
        · subst hk
          have hj : j ≠ idx := fun hj => hne ⟨rfl, hj⟩
          rw [slotAt_graph_of_get _ k j
            (Node.mk nd.id (some (listSet ws idx v))) (listSet ws idx v)
            (by rw [hpt k]; simp) rfl]
          rw [slotAt_graph_of_get ns k j nd ws hget hws]
          exact listSet_get_other ws idx j v hj
        · apply slotAt_graph_of_get_eq
          rw [hpt k]
          simp [hk]
      · intro k
        rw [hfind2]
        unfold nodeIdAt
        simp only [Template.getNodes]
        rw [hpt k]
        by_cases hk : k = i
        · subst hk
          have hget' : ns.get? k = some nd := hget
          rw [if_pos rfl, hget']
          simp [strId]
        · rw [if_neg hk]

/--
C3 counterexample: the claim asserts the input template is unmodified after
the call.  For a template whose node 9 slot 0 holds "old", a successful
`find_node_and_set_widget_value` leaves the caller's template different from
the input: the slot now holds "new" (in-place mutation, with only a success
flag returned).
-/
theorem find_mutates_template_cex :
    (find_node_and_set_widget_value
      (Template.graph [Node.mk (NodeId.int 9) (some [JVal.s "old"])])
      (NodeId.int 9) 0 (JVal.s "new")).2
      ≠ Template.graph [Node.mk (NodeId.int 9) (some [JVal.s "old"])] := by
  decide

/-- C3 witness: the failure path leaves an empty template unchanged, and the
success path overwrites the matched node's slot with the new value. -/
theorem find_in_place_mutation_witness :
    (find_node_and_set_widget_value (Template.graph []) (NodeId.int 24) 0 JVal.null).2
      = Template.graph [] ∧
    slotAt (find_node_and_set_widget_value
      (Template.graph [Node.mk (NodeId.int 9) (some [JVal.s "old"])])
      (NodeId.int 9) 0 (JVal.s "new")).2 0 0 = some (JVal.s "new") :=
  ⟨(find_in_place_mutation (Template.graph []) (NodeId.int 24) 0 JVal.null).1 (by decide),
   ((find_in_place_mutation
      (Template.graph [Node.mk (NodeId.int 9) (some [JVal.s "old"])])
      (NodeId.int 9) 0 (JVal.s "new")).2 0
      (Node.mk (NodeId.int 9) (some [JVal.s "old"])) [JVal.s "old"]
      (by decide) (by decide) (by decide) (by decide)
      (fun k nd' hk _ _ => absurd hk (Nat.not_lt_zero k))).2.1⟩

/-! Job Channel (`comfy_runner.py`): per-job websocket submission.  The engine
side is abstracted by the list of messages the connection will deliver; an
exhausted list stands for the peer closing the connection, which makes
`ws.recv()` raise.  `Outcome` distinguishes a normal return from a raised
exception. -/

inductive Outcome (α : Type) where
  | ok : α → Outcome α
  | exn : String → Outcome α
deriving DecidableEq, Repr

structure ImageInfo where
  filename : String
  subfolder : String
deriving DecidableEq, Repr

/-- A frame received on the websocket: a JSON text event (its `type` field and
the `data.output.images` list, empty when absent) or a binary preview frame. -/
inductive WsMessage where
  | text : String → List ImageInfo → WsMessage
  | binary : WsMessage
deriving DecidableEq, Repr

def outputRoot : String := "/ComfyUI/output"

/-- One step of Python's `os.path.join`: an absolute second component replaces
the first; otherwise a separator is inserted unless one is already present. -/
def joinTwo (a b : String) : String :=
  if b.startsWith "/" then b
  else if a = "" then b
  else if a.endsWith "/" then a ++ b
  else a ++ "/" ++ b

/-- `os.path.join('/ComfyUI/output', image_info['subfolder'], image_info['filename'])`. -/
def resolvePath (img : ImageInfo) : String :=
  joinTwo (joinTwo outputRoot img.subfolder) img.filename

/-- The receive loop of `_queue_prompt`: binary frames are skipped, text events
other than `executed` are skipped, and the first `executed` event returns the
resolved paths of its image descriptors.  When the message list is exhausted
the blocking `ws.recv()` raises (connection lost). -/
def recvLoop : List WsMessage → Outcome (List String)
  | [] => Outcome.exn "Connection to remote host was lost."
  | WsMessage.binary :: rest => recvLoop rest
  | WsMessage.text t imgs :: rest =>
    if t = "executed" then Outcome.ok (imgs.map resolvePath) else recvLoop rest

/-- The image list of the first `executed` event among the delivered messages. -/
def firstExecutedImages : List WsMessage → Option (List ImageInfo)
  | [] => none
  | WsMessage.binary :: rest => firstExecutedImages rest
  | WsMessage.text t imgs :: rest =>
    if t = "executed" then some imgs else firstExecutedImages rest

/-- Python's `try: body finally: ws.close()`: the finalizer increments the
close counter exactly once whether `body` returned or raised, and the body's
outcome (value or exception) is then propagated unchanged. -/
def tryFinallyCount (body : Outcome (List String)) (closesBefore : Nat) :
    Outcome (List String) × Nat :=
  (body, closesBefore + 1)

/-- `_queue_prompt(prompt_workflow)`: connect, then inside `try` send the
submission and run the receive loop, and in `finally` close the connection.
`sendOk` abstracts whether `ws.send` itself raises; `ms` is the message
sequence the engine delivers on this connection.  The second component counts
how often this call closed its connection. -/
def queue_prompt (_pw : List (String × Node)) (sendOk : Bool) (ms : List WsMessage) :
    Outcome (List String) × Nat :=
  tryFinallyCount (if sendOk then recvLoop ms else Outcome.exn "send failed") 0

/-- `run_workflow(workflow)`: a direct wrapper around `_queue_prompt`. -/
def run_workflow (pw : List (String × Node)) (sendOk : Bool) (ms : List WsMessage) :
    Outcome (List String) × Nat :=
  queue_prompt pw sendOk ms

/-- The handler's selection of the job's primary artifact: an empty path list
is converted to the no-output error, otherwise the first path is the result. -/
def selectFirstArtifact (paths : List String) : Except String String :=
  match paths with
  | [] => Except.error "Image generation failed, no output from ComfyUI."
  | p :: _ => Except.ok p

/-- The orchestrator's artifact phase: run the submission and either surface
the raised exception as the uniform error, or select the first artifact. -/
def runJobResult (pw : List (String × Node)) (sendOk : Bool) (ms : List WsMessage) :
    Except String String :=
  match queue_prompt pw sendOk ms with
  | (Outcome.ok paths, _) => selectFirstArtifact paths
  | (Outcome.exn e, _) => Except.error ("An unexpected error occurred: " ++ e)

theorem recvLoop_executed (ms : List WsMessage) (imgs : List ImageInfo)
    (h : firstExecutedImages ms = some imgs) :
    recvLoop ms = Outcome.ok (imgs.map resolvePath) := by
  induction ms with
  | nil => simp [firstExecutedImages] at h
  | cons m rest ih =>
    cases m with
    | binary =>
      simp only [firstExecutedImages] at h
      simp only [recvLoop]
      exact ih h
    | text t is =>
      by_cases ht : t = "executed"
      · simp only [firstExecutedImages, if_pos ht] at h
        injection h with h
        simp [recvLoop, ht, h]
      · simp only [firstExecutedImages, if_neg ht] at h
        simp only [recvLoop, if_neg ht]
        exact ih h

/--
C4: For a job whose submission succeeds (the send goes through and the engine
delivers a completion event): an empty image list on the completion event
yields the no-output error, and a non-empty image list yields exactly the
first image's resolved path (output root joined with the descriptor's
subfolder and filename); surplus descriptors beyond the first are ignored.
-/
theorem completion_event_first_artifact (pw : List (String × Node)) (sendOk : Bool)
    (ms : List WsMessage) (imgs : List ImageInfo)
    (hs : sendOk = true) (h : firstExecutedImages ms = some imgs) :
    (imgs = [] → runJobResult pw sendOk ms
      = Except.error "Image generation failed, no output from ComfyUI.") ∧
    (∀ img rest, imgs = img :: rest →
      runJobResult pw sendOk ms = Except.ok (resolvePath img)) := by
  subst hs
  have hr : recvLoop ms = Outcome.ok (imgs.map resolvePath) := recvLoop_executed ms imgs h
  constructor
  · rintro rfl
    simp [runJobResult, queue_prompt, tryFinallyCount, hr, selectFirstArtifact]
  · rintro img rest rfl
    simp [runJobResult, queue_prompt, tryFinallyCount, hr, selectFirstArtifact]

/-- C4 witness: a connection delivering a binary preview, a status event and
one `executed` event with a single image descriptor yields exactly that
image's resolved path. -/
theorem completion_event_first_artifact_witness :
    runJobResult [] true
      [WsMessage.binary, WsMessage.text "status" [],
       WsMessage.text "executed" [ImageInfo.mk "out.png" ""]]
      = Except.ok (resolvePath (ImageInfo.mk "out.png" "")) :=
  (completion_event_first_artifact [] true
    [WsMessage.binary, WsMessage.text "status" [],
     WsMessage.text "executed" [ImageInfo.mk "out.png" ""]]
    [ImageInfo.mk "out.png" ""] rfl (by decide)).2
    (ImageInfo.mk "out.png" "") [] rfl

/--
C5: `_queue_prompt` closes its per-job connection exactly once on every exit
path after the connection is established: whether the send raises, the
receive loop raises because the connection is lost, or a completion event is
received, the `finally` block runs the single close, and the body's outcome
is propagated unchanged.
-/
theorem queue_prompt_closes_once (pw : List (String × Node)) (sendOk : Bool)
    (ms : List WsMessage) :
    (queue_prompt pw sendOk ms).2 = 1 ∧
    (queue_prompt pw sendOk ms).1
      = (if sendOk then recvLoop ms else Outcome.exn "send failed") := ⟨rfl, rfl⟩

/-! Readiness Prober and Process Supervisor (`comfy_runner.py`).  Time is
discrete: a probe against a dead endpoint fails immediately (connection
refused) and the loop then sleeps one second, so elapsed seconds equal the
count of 1-second sleeps; the loop guard `time.time() - start_time < timeout`
becomes positive remaining fuel `timeout - sleeps`. -/

structure WaitResult where
  ok : Bool
  sleeps : Nat
  closes : Nat
deriving DecidableEq, Repr

/-- The body of `_wait_for_server`: attempt probe number `k`; on success close
the probe connection and return; on failure sleep 1 second and retry while
the elapsed time is still below the timeout. -/
def waitLoop (probe : Nat → Bool) : Nat → Nat → WaitResult
  | 0, _ => WaitResult.mk false 0 0
  | Nat.succ fuel, k =>
    if probe k then WaitResult.mk true 0 1
    else
      let r := waitLoop probe fuel (k + 1)
      WaitResult.mk r.ok (r.sleeps + 1) r.closes

/-- `_wait_for_server(timeout)`: probe until ready or until `timeout` seconds
of cumulative sleeping have elapsed; the `RuntimeError` raise is the
`ok = false` result. -/
def wait_for_server (probe : Nat → Bool) (timeout : Nat) : WaitResult :=
  waitLoop probe timeout 0

/-- The Python default `timeout=60`. -/
def wait_for_server_default (probe : Nat → Bool) : WaitResult :=
  wait_for_server probe 60

theorem waitLoop_all_false (probe : Nat → Bool) (hp : ∀ j, probe j = false) :
    ∀ fuel k, waitLoop probe fuel k = WaitResult.mk false fuel 0 := by
  intro fuel
  induction fuel with
  | zero => intro k; rfl
  | succ fuel ih =>
    intro k
    simp [waitLoop, hp k, ih (k + 1)]

theorem waitLoop_first_true (probe : Nat → Bool) :
    ∀ d fuel k, d < fuel → probe (k + d) = true →
      (∀ e, e < d → probe (k + e) = false) →
      waitLoop probe fuel k = WaitResult.mk true d 1 := by
  intro d
  induction d with
  | zero =>
    intro fuel k hf hp _
    cases fuel with
    | zero => simp at hf
    | succ fuel =>
      have : probe k = true := by simpa using hp
      simp [waitLoop, this]
  | succ e ih =>
    intro fuel k hf hp hprev
    cases fuel with
    | zero => simp at hf
    | succ fuel =>
      have h0 : probe k = false := by
        have := hprev 0 (Nat.succ_pos e)
        simpa using this
      have hrec : waitLoop probe fuel (k + 1) = WaitResult.mk true e 1 := by
        apply ih fuel (k + 1) (Nat.lt_of_succ_lt_succ hf)
        · have : k + 1 + e = k + (e + 1) := by omega
          rw [this]
          exact hp
        · intro e' he'
          have : k + 1 + e' = k + (e' + 1) := by omega
          rw [this]
          exact hprev (e' + 1) (Nat.succ_lt_succ he')
      simp [waitLoop, h0, hrec]

/--
C6: Against an endpoint that never accepts a connection, `_wait_for_server`
fails only after `timeout` failed probes each followed by a 1-second sleep
(cumulative elapsed time reaches the timeout; never immediately for a positive
timeout, and never indefinitely since the loop performs exactly `timeout`
sleeps), and it returns success on the first successful probe — after as many
sleeps as there were failed probes — closing the probe connection exactly
once.  The Python default timeout is 60 seconds (`wait_for_server_default`).
-/
theorem readiness_probe_behavior (probe : Nat → Bool) (timeout : Nat) :
    ((∀ j, probe j = false) →
      wait_for_server probe timeout = WaitResult.mk false timeout 0) ∧
    (∀ j0, j0 < timeout → probe j0 = true → (∀ i, i < j0 → probe i = false) →
      wait_for_server probe timeout = WaitResult.mk true j0 1) ∧
    wait_for_server_default probe = wait_for_server probe 60 := by
  refine ⟨?_, ?_, rfl⟩
  · intro hp
    exact waitLoop_all_false probe hp timeout 0
  · intro j0 hlt hj hprev
    apply waitLoop_first_true probe j0 timeout 0 hlt
    · simpa using hj
    · intro e he
      simpa using hprev e he

/-- C6 witness: with a never-successful probe and timeout 2, readiness fails
after exactly 2 sleeps; with the first success on probe 1 and timeout 3, it
succeeds after 1 sleep and closes the probe connection once. -/
theorem readiness_probe_behavior_witness :
    wait_for_server (fun _ => false) 2 = WaitResult.mk false 2 0 ∧
    wait_for_server (fun j => decide (j = 1)) 3 = WaitResult.mk true 1 1 :=
  ⟨(readiness_probe_behavior (fun _ => false) 2).1 (fun _ => rfl),
   (readiness_probe_behavior (fun j => decide (j = 1)) 3).2.1 1 (by decide)
     (by decide) (by decide)⟩

/-! Process Supervisor (`_start_server` / `_run_server_process`).  The spawn
runs on a daemon thread: an exception raised by `subprocess.Popen` inside the
thread is printed by the thread machinery and never propagates to
`_start_server`, which proceeds directly to `_wait_for_server`. -/

inductive SpawnResult where
  | ok : SpawnResult
  | failed : SpawnResult
deriving DecidableEq, Repr

def server_address : String := "127.0.0.1:8188"

/-- `["python", "main.py", f"--listen={self.server_address.split(':')[0]}"]`. -/
def serverCommand : List String :=
  ["python", "main.py", "--listen=" ++ ((server_address.splitOn ":").headD "")]

structure EngineProcess where
  command : List String
deriving DecidableEq, Repr

/-- `_run_server_process`: `subprocess.Popen` either yields a live child
process handle or raises inside the daemon thread, leaving no process. -/
def runServerProcess (spawn : SpawnResult) : Option EngineProcess :=
  match spawn with
  | SpawnResult.ok => some (EngineProcess.mk serverCommand)
  | SpawnResult.failed => none

/-- The possible results of `_start_server`.  `processStartError` appears in
the spec's error taxonomy; the code never produces it, because the spawn runs
on a daemon thread whose exception cannot reach `_start_server`. -/
inductive StartOutcome where
  | ready : Nat → StartOutcome
  | readinessTimeout : StartOutcome
  | processStartError : StartOutcome
deriving DecidableEq, Repr

/-- `_start_server`: launch `_run_server_process` on a daemon thread (its
spawn outcome does not influence the control flow here) and then block in
`_wait_for_server`; a probe success returns normally, otherwise the
`RuntimeError` (readiness timeout) is raised. -/
def start_server (spawn : SpawnResult) (probe : Nat → Bool) (timeout : Nat) :
    Option EngineProcess × StartOutcome :=
  let proc := runServerProcess spawn
  let r := wait_for_server probe timeout
  (proc, if r.ok then StartOutcome.ready r.closes else StartOutcome.readinessTimeout)

/--
C9 counterexample: the claim says a failed spawn makes start fail immediately
with a ProcessStartError.  With a failed spawn and a never-listening endpoint,
`start_server` instead fails with the readiness timeout, and only after the
full probe timeout (60 one-second sleeps with the default timeout) — not
immediately, and not with `StartOutcome.processStartError`.
-/
theorem spawn_failure_no_process_start_error_cex :
    start_server SpawnResult.failed (fun _ => false) 60
      = (none, StartOutcome.readinessTimeout) ∧
    StartOutcome.readinessTimeout ≠ StartOutcome.processStartError ∧
    (wait_for_server (fun _ => false) 60).sleeps = 60 := by
  decide

/--
C9 (amended): if spawning the engine child process fails, the exception stays
on the daemon thread: `_start_server` does not fail immediately and never
produces a ProcessStartError; no engine process is running, and with the
engine never accepting connections the start fails with the readiness timeout
after the full probe timeout.  After a successful spawn a live child process
handle exists.
-/
theorem spawn_failure_times_out (probe : Nat → Bool) (timeout : Nat)
    (hp : ∀ j, probe j = false) :
    runServerProcess SpawnResult.failed = none ∧
    start_server SpawnResult.failed probe timeout
      = (none, StartOutcome.readinessTimeout) ∧
    (wait_for_server probe timeout).sleeps = timeout ∧
    (runServerProcess SpawnResult.ok).isSome = true := by
  have hw : wait_for_server probe timeout = WaitResult.mk false timeout 0 :=
    waitLoop_all_false probe hp timeout 0
  refine ⟨rfl, ?_, ?_, rfl⟩
  · simp [start_server, runServerProcess, hw]
  · rw [hw]

/-- C9 witness: the amended behavior at a concrete never-listening probe with
timeout 2. -/
theorem spawn_failure_times_out_witness :
    start_server SpawnResult.failed (fun _ => false) 2
      = (none, StartOutcome.readinessTimeout) ∧
    (wait_for_server (fun _ => false) 2).sleeps = 2 :=
  ⟨(spawn_failure_times_out (fun _ => false) 2 (fun _ => rfl)).2.1,
   (spawn_failure_times_out (fun _ => false) 2 (fun _ => rfl)).2.2.1⟩

/-! Node-id string normalization and the prompt-format conversion
`{str(node["id"]): node for node in workflow["nodes"]}`. -/

/-- Replace a node's id by its stringified form (the other side of the
`str(node.get("id")) == str(node_id)` comparison). -/
def normNode (nd : Node) : Node :=
  Node.mk (NodeId.str (strId nd)) nd.widgets_values

def normTemplate : Template → Template
  | Template.graph ns => Template.graph (ns.map normNode)
  | Template.flattened es => Template.flattened es

/-- Python dict assignment `d[k] = nd`: replace the value of an existing key,
otherwise append the new entry. -/
def dictInsert (d : List (String × Node)) (k : String) (nd : Node) :
    List (String × Node) :=
  if d.any (fun p => p.1 == k) then
    d.map (fun p => if p.1 == k then (k, nd) else p)
  else d ++ [(k, nd)]

/-- `{str(node["id"]): node for node in workflow["nodes"]}`: the flattened
prompt mapping submitted to the engine, keyed by stringified node id. -/
def buildPromptWorkflow (ns : List Node) : List (String × Node) :=
  ns.foldl (fun d nd => dictInsert d (strId nd) nd) []

theorem setWidget_norm (ns : List Node) (nidS : String) (idx : Nat) (v : JVal) :
    setWidgetInNodes (ns.map normNode) nidS idx v
      = ((setWidgetInNodes ns nidS idx v).1,
         (setWidgetInNodes ns nidS idx v).2.map normNode) := by
  induction ns with
  | nil => rfl
  | cons nd rest ih =>
    by_cases h : strId nd = nidS ∧ nodeHasSlot nd idx = true
    · have h' : strId (normNode nd) = nidS ∧ nodeHasSlot (normNode nd) idx = true := h
      simp only [List.map_cons, setWidgetInNodes, if_pos h, if_pos h']
      cases hw : nd.widgets_values <;>
        simp [setNodeWidget, normNode, strId, hw]
    · have h' : ¬(strId (normNode nd) = nidS ∧ nodeHasSlot (normNode nd) idx = true) := h
      simp only [List.map_cons, setWidgetInNodes, if_neg h, if_neg h', ih]

theorem dictInsert_keyed (d : List (String × Node)) (k : String) (nd : Node)
    (hd : ∀ p ∈ d, p.1 = strId p.2) (hk : k = strId nd) :
    ∀ p ∈ dictInsert d k nd, p.1 = strId p.2 := by
  intro p hp
  unfold dictInsert at hp
  by_cases ha : d.any (fun p => p.1 == k) = true
  · rw [if_pos ha] at hp
    obtain ⟨q, hq, hpq⟩ := List.mem_map.mp hp
    by_cases hqk : q.1 == k
    · rw [if_pos hqk] at hpq
      rw [← hpq]
      exact hk
    · rw [if_neg hqk] at hpq
      rw [← hpq]
      exact hd q hq
  · rw [if_neg ha] at hp
    rcases List.mem_append.mp hp with hin | hone
    · exact hd p hin
    · have : p = (k, nd) := by simpa using hone
      rw [this]
      exact hk

theorem buildPromptWorkflow_keyed_aux (ns : List Node) :
    ∀ d, (∀ p ∈ d, p.1 = strId p.2) →
      ∀ p ∈ ns.foldl (fun d nd => dictInsert d (strId nd) nd) d, p.1 = strId p.2 := by
  induction ns with
  | nil => intro d hd p hp; exact hd p hp
  | cons nd rest ih =>
    intro d hd p hp
    exact ih (dictInsert d (strId nd) nd)
      (dictInsert_keyed d (strId nd) nd hd rfl) p hp

/--
C10: node-identifier matching is string-normalized at the parameterizer
interface: the lookup result is unchanged if the target id is replaced by any
id with the same stringification, and unchanged (up to the same normalization)
if every node id in the template is replaced by its stringified form — so a
node with integer id 9 and a node with string id "9" are located identically.
The prompt mapping submitted to the engine is always keyed by the stringified
node id.
-/
theorem id_matching_string_normalized (T : Template) (nid nid' : NodeId)
    (idx : Nat) (v : JVal) (ns : List Node) (h : nid.toStr = nid'.toStr) :
    find_node_and_set_widget_value T nid idx v
      = find_node_and_set_widget_value T nid' idx v ∧
    find_node_and_set_widget_value (normTemplate T) nid idx v
      = ((find_node_and_set_widget_value T nid idx v).1,
         normTemplate (find_node_and_set_widget_value T nid idx v).2) ∧
    (∀ p ∈ buildPromptWorkflow ns, p.1 = strId p.2) := by
  refine ⟨?_, ?_, ?_⟩
  · cases T with
    | graph ms => simp [find_node_and_set_widget_value, h]
    | flattened es => rfl
  · cases T with
    | graph ms =>
      simp only [normTemplate, find_node_and_set_widget_value,
        setWidget_norm ms nid.toStr idx v]
    | flattened es => rfl
  · intro p hp
    exact buildPromptWorkflow_keyed_aux ns [] (by intro q hq; simp at hq) p hp

/-- C10 witness: a template whose node carries the string id "9" is updated
identically whether the lookup uses the integer id 9 or the string id "9". -/
theorem id_matching_string_normalized_witness :
    find_node_and_set_widget_value
      (Template.graph [Node.mk (NodeId.str "9") (some [JVal.s "x"])])
      (NodeId.int 9) 0 (JVal.s "y")
      = find_node_and_set_widget_value
      (Template.graph [Node.mk (NodeId.str "9") (some [JVal.s "x"])])
      (NodeId.str "9") 0 (JVal.s "y") :=
  (id_matching_string_normalized
    (Template.graph [Node.mk (NodeId.str "9") (some [JVal.s "x"])])
    (NodeId.int 9) (NodeId.str "9") 0 (JVal.s "y") [] (by decide)).1

/--
C8 counterexample: the claim says the parameterizer can locate a node and
write an override in flattened-form templates as well.  On a flattened-form
template that does contain node "9" (keyed by its stringified id, with an
`inputs` mapping holding a "text" key), `find_node_and_set_widget_value`
iterates the absent `nodes` sequence, finds nothing, returns `False` and
leaves the template unchanged — no override is written.
-/
theorem flattened_template_not_located_cex :
    find_node_and_set_widget_value
      (Template.flattened [("9", FlatNode.mk [("text", JVal.s "placeholder")])])
      (NodeId.int 9) 0 (JVal.s "a cat in a hat")
      = (false,
         Template.flattened [("9", FlatNode.mk [("text", JVal.s "placeholder")])]) := by
  decide

/--
C8 (amended): the Graph Parameterizer supports only graph-form templates: on a
graph-form template it locates a node by stringified id and writes the
positional widget slot, succeeding exactly when the target exists; on a
flattened-form template the node lookup iterates the absent `nodes` sequence
and always fails without writing, whatever entries the mapping holds.
-/
theorem find_graph_form_only (ns : List Node) (es : List (String × FlatNode))
    (nid : NodeId) (idx : Nat) (v : JVal) :
    find_node_and_set_widget_value (Template.flattened es) nid idx v
      = (false, Template.flattened es) ∧
    (find_node_and_set_widget_value (Template.graph ns) nid idx v).1
      = targetExistsB (Template.graph ns) (Override.mk nid idx v) :=
  ⟨rfl, find_fst_eq_targetExistsB (Template.graph ns) nid idx v⟩

/-! Job Orchestrator (`handler` in `rp_handler.py`).  External effects are
abstracted as fields of `JobEnv`: the extracted job-input fields, whether the
input image decodes and saves, the result of loading `/workflow_api.json`,
whether the websocket send goes through, the messages the engine delivers,
whether the generated file exists, whether reading/removing it raises, and
the base64 encoding of its bytes. -/

structure JobEnv where
  prompt : Option String
  image : Option String
  image_save : Except String Unit
  template_load : Except String Template
  send_ok : Bool
  messages : List WsMessage
  fileExists : String → Bool
  readExn : Option String
  fileB64 : String → String

/-- Python truthiness of an optional string: `None` and `""` are falsy. -/
def truthy : Option String → Bool
  | none => false
  | some s => !(s == "")

def promptStr (env : JobEnv) : String := env.prompt.getD ""

/-- The job handler: returns a one-entry mapping, `{"image": ...}` on success
and `{"error": ...}` on every failure path, following the source's returns
and its `except` clauses in order. -/
def handler (env : JobEnv) : List (String × String) :=
  if truthy env.prompt = false then
    [("error", "A text prompt is required.")]
  else if truthy env.image = false then
    [("error", "An input image (base64 encoded) is required.")]
  else
    match env.image_save with
    | Except.error e => [("error", "Failed to process input image: " ++ e)]
    | Except.ok _ =>
      match env.template_load with
      | Except.error e => [("error", "Failed to prepare workflow: " ++ e)]
      | Except.ok T =>
        match find_node_and_set_widget_value T (NodeId.int 9) 0
            (JVal.s (promptStr env)) with
        | (false, _) => [("error", "Could not find prompt node (ID 9) in workflow.")]
        | (true, T1) =>
          match find_node_and_set_widget_value T1 (NodeId.int 24) 0
              (JVal.s "input_image.png") with
          | (false, _) =>
            [("error", "Could not find Load Image node (ID 24) in workflow.")]
          | (true, T2) =>
            match T2 with
            | Template.flattened _ => [("error", "An unexpected error occurred: nodes")]
            | Template.graph ns =>
              match queue_prompt (buildPromptWorkflow ns) env.send_ok env.messages with
              | (Outcome.exn e, _) => [("error", "An unexpected error occurred: " ++ e)]
              | (Outcome.ok paths, _) =>
                match paths with
                | [] => [("error", "Image generation failed, no output from ComfyUI.")]
                | pth :: _ =>
                  if env.fileExists pth = false then
                    [("error", "Generated image file not found at path: " ++ pth)]
                  else
                    match env.readExn with
                    | some e => [("error", "An unexpected error occurred: " ++ e)]
                    | none => [("image", env.fileB64 pth)]

/-- The job succeeds: both inputs truthy, the image stages, the template
loads, both well-known targets (node 9 slot 0, node 24 slot 0) exist in it,
the send goes through, the engine delivers a completion event with at least
one image, the first artifact file exists, and reading it does not raise. -/
def jobSucceedsB (env : JobEnv) : Bool :=
  truthy env.prompt && truthy env.image &&
  (match env.image_save with
   | Except.ok _ => true
   | Except.error _ => false) &&
  (match env.template_load with
   | Except.error _ => false
   | Except.ok T =>
     targetExistsB T (Override.mk (NodeId.int 9) 0 (JVal.s (promptStr env))) &&
     targetExistsB T (Override.mk (NodeId.int 24) 0 (JVal.s "input_image.png")) &&
     env.send_ok &&
     (match firstExecutedImages env.messages with
      | none => false
      | some [] => false
      | some (img :: _) =>
        env.fileExists (resolvePath img) && env.readExn.isNone))

theorem recvLoop_no_executed (ms : List WsMessage)
    (h : firstExecutedImages ms = none) :
    recvLoop ms = Outcome.exn "Connection to remote host was lost." := by
  induction ms with
  | nil => rfl
  | cons m rest ih =>
    cases m with
    | binary =>
      simp only [firstExecutedImages] at h
      simp only [recvLoop]
      exact ih h
    | text t is =>
      by_cases ht : t = "executed"
      · simp [firstExecutedImages, ht] at h
      · simp only [firstExecutedImages, if_neg ht] at h
        simp only [recvLoop, if_neg ht]
        exact ih h

theorem lookups_of_error (msg : String) :
    ((([("error", msg)] : List (String × String)).lookup "image").isSome = false) ∧
    ((([("error", msg)] : List (String × String)).lookup "error").isSome = true) :=
  ⟨rfl, rfl⟩

theorem lookups_of_image (s : String) :
    ((([("image", s)] : List (String × String)).lookup "image").isSome = true) ∧
    ((([("image", s)] : List (String × String)).lookup "error").isSome = false) :=
  ⟨rfl, rfl⟩

/--
C7: the handler returns a mapping containing the key "image" exactly when the
job succeeds, and otherwise a mapping containing the key "error" with a
message string: every modelled per-job failure (missing or empty input,
image-staging failure, template-load failure, missing workflow node, channel
send failure, lost connection, empty output, missing or unreadable artifact
file) is converted to the uniform error result, and the handler is a total
function — no failure escapes it.
-/
theorem handler_uniform_result (env : JobEnv) :
    ((handler env).lookup "image").isSome = jobSucceedsB env ∧
    ((handler env).lookup "error").isSome = !jobSucceedsB env := by
  unfold handler jobSucceedsB
  cases hp : truthy env.prompt with
  | false => simp [List.lookup]
  | true =>
  cases him : truthy env.image with
  | false => simp [List.lookup]
  | true =>
  cases hsv : env.image_save with
  | error e => simp [List.lookup]
  | ok u =>
  cases htl : env.template_load with
  | error e => simp [List.lookup]
  | ok T =>
  cases T with
  | flattened es =>
    simp [find_node_and_set_widget_value, targetExistsB, Template.getNodes, List.lookup]
  | graph ms0 =>
  have ht9 : targetExistsB (Template.graph ms0)
      (Override.mk (NodeId.int 9) 0 (JVal.s (promptStr env)))
      = (setWidgetInNodes ms0 (NodeId.int 9).toStr 0 (JVal.s (promptStr env))).1 := by
    rw [← find_fst_eq_targetExistsB]
    rfl
  simp only [find_node_and_set_widget_value]
  cases hb9 : (setWidgetInNodes ms0 (NodeId.int 9).toStr 0 (JVal.s (promptStr env))).1 with
  | false => simp [ht9, hb9, List.lookup]
  | true =>
  have ht24 : targetExistsB (Template.graph ms0)
      (Override.mk (NodeId.int 24) 0 (JVal.s "input_image.png"))
      = (setWidgetInNodes
          (setWidgetInNodes ms0 (NodeId.int 9).toStr 0 (JVal.s (promptStr env))).2
          (NodeId.int 24).toStr 0 (JVal.s "input_image.png")).1 := by
    rw [← targetExistsB_graph_eq_of_shape ms0
      (setWidgetInNodes ms0 (NodeId.int 9).toStr 0 (JVal.s (promptStr env))).2
      (setWidget_shape ms0 (NodeId.int 9).toStr 0 (JVal.s (promptStr env)))]
    rw [← find_fst_eq_targetExistsB (Template.graph
      (setWidgetInNodes ms0 (NodeId.int 9).toStr 0 (JVal.s (promptStr env))).2)
      (NodeId.int 24) 0 (JVal.s "input_image.png")]
    rfl
  cases hb24 : (setWidgetInNodes
      (setWidgetInNodes ms0 (NodeId.int 9).toStr 0 (JVal.s (promptStr env))).2
      (NodeId.int 24).toStr 0 (JVal.s "input_image.png")).1 with
  | false => simp [ht9, hb9, ht24, hb24, List.lookup]
  | true =>
  simp only [ht9, hb9, ht24, hb24, queue_prompt, tryFinallyCount]
  cases hso : env.send_ok with
  | false => simp [List.lookup]
  | true =>
  cases hfe : firstExecutedImages env.messages with
  | none =>
    have hr := recvLoop_no_executed env.messages hfe
    simp [hr, List.lookup]
  | some imgs =>
    have hr := recvLoop_executed env.messages imgs hfe
    cases imgs with
    | nil => simp [hr, List.lookup]
    | cons img restImgs =>
      simp only [hr, List.map_cons]
      cases hex : env.fileExists (resolvePath img) with
      | false => simp [hex, List.lookup]
      | true =>
        cases hre : env.readExn with
        | some e => simp [hex, hre, List.lookup]
        | none => simp [hex, hre, List.lookup]
